import Mathlib

/-!
# Docker daemon configuration file checks (`checks/dockerfiles.go`)

A shallow embedding of the rule catalog of section 3 of the benchmark
("Docker daemon configuration files") and the properties of its rules.

Every rule of the Go file is a function `func CheckX(client) (res Result)` that
reads operating-system facts and fills in a `Result`.  Here a rule is a function
of an explicit environment `Env` (the file system, the identity database, the
process table) and returns a `Run Result`: the ordered list of the external
calls it made together with either the returned value or the way the process
ended (`Abort`).  The `client` handle every rule receives is used by none of
them and is left out.
-/

namespace checks

/-! ## Data model -/

/-- Modelled from the spec: the Result record, whose declaration is outside
`dockerfiles.go`.  Section 3 of the spec gives its three fields; the rules assign
string literals to `Status` and `Output`, so both are strings, and the zero
value has all three fields empty. -/
structure Result where
  Name : String := ""
  Status : String := ""
  Output : String := ""
  deriving DecidableEq, Repr

/-- Modelled from the spec: the status-transition helper `res.Info(s)`, declared
outside `dockerfiles.go`.  The result-state machine of section 4.4 has the
informational short-circuit carry Status INFO and a human-readable Output. -/
def Result.Info (r : Result) (s : String) : Result :=
  { r with Status := "INFO", Output := s }

/-- Modelled from the spec: the status-transition helper `res.Pass()`, declared
outside `dockerfiles.go`: the predicate holds, Status becomes PASS. -/
def Result.Pass (r : Result) : Result :=
  { r with Status := "PASS" }

/-- Modelled from the spec: the status-transition helper `res.Fail(s)`, declared
outside `dockerfiles.go`: the predicate fails, Status becomes WARN and Output is
populated. -/
def Result.Fail (r : Result) (s : String) : Result :=
  { r with Status := "WARN", Output := s }

/-- The part of `os.FileInfo` the rules read: the base name, the directory
flag, the mode bits and the owner recorded in the underlying stat record. -/
structure FileInfo where
  Name : String
  IsDir : Bool
  Mode : Nat
  Uid : Nat
  Gid : Nat
  deriving DecidableEq, Repr

/-- Go `error` values returned by the file-system calls, by kind. -/
inductive OsError where
  | notExist
  | permission
  | other
  deriving DecidableEq, Repr

/-- The Go pair `(os.FileInfo, error)`; a nil component is `none`. -/
structure StatRet where
  info : Option FileInfo
  err : Option OsError
  deriving DecidableEq, Repr

/-- The Go pair `([]os.FileInfo, error)` returned by `ioutil.ReadDir`. -/
structure ReadDirRet where
  list : List FileInfo
  err : Option OsError
  deriving DecidableEq, Repr

/-- The ways a rule can end without returning: a run-time panic, or
`log.Fatal`, which exits the process. -/
inductive Abort where
  | panic
  | fatal
  deriving DecidableEq, Repr

/-- Everything outside `dockerfiles.go` a rule depends on. -/
structure Env where
  /-- Current working directory of the process. -/
  cwd : String
  /-- File metadata by absolute path. -/
  stat : String → StatRet
  /-- Directory listing by absolute path. -/
  readDir : String → ReadDirRet
  /-- Answer of `getSystemdFile` for a unit name. -/
  systemdFile : String → StatRet
  /-- Answer of `getUserInfo` for a user name: `(uid, primary gid)`. -/
  userInfo : String → Except Abort (Nat × Nat)
  /-- Answer of `getGroupId` for a group name. -/
  groupId : String → Except Abort Nat
  /-- Live processes: executable name and argument vector. -/
  processes : List (String × List String)
  /-- What `getFileOwner` does when handed a nil `os.FileInfo`. -/
  ownerOfNil : Except Abort (Nat × Nat)
  /-- What `hasLeastPerms` does when handed a nil `os.FileInfo`. -/
  permsOfNil : Except Abort (Bool × Nat)
  /-- Rendering of the permission value under the `%v` verb. -/
  fmtPerms : Nat → String

/-- External calls a rule makes, in the order it makes them. -/
inductive Event where
  | systemdFile (name : String)
  | stat (path : String)
  | readDir (path : String)
  | procCmdline (name : String)
  | userInfo (name : String)
  | groupId (name : String)
  | fileOwner (info : Option FileInfo)
  | leastPerms (info : Option FileInfo) (ref : Nat)
  | println (s : String)
  deriving DecidableEq, Repr

/-- A run of a piece of rule code: the calls made and how it ended. -/
structure Run (α : Type) where
  trace : List Event
  out : Except Abort α

/-- Return a value, making no call. -/
def Run.pure {α : Type} (a : α) : Run α := ⟨[], .ok a⟩

/-- Sequencing: the second part runs only if the first returned. -/
def Run.bind {α β : Type} (m : Run α) (f : α → Run β) : Run β :=
  match m.out with
  | .ok a => ⟨m.trace ++ (f a).trace, (f a).out⟩
  | .error e => ⟨m.trace, .error e⟩

instance : Monad Run where
  pure := Run.pure
  bind := Run.bind

/-- One external call with its answer. -/
def call {α : Type} (e : Event) (r : Except Abort α) : Run α := ⟨[e], r⟩

/-! ## Library and helper functions the rules call -/

/-- Path resolution of the operating system: the empty pathname names nothing,
an absolute path is itself, a relative one is taken from the working
directory. -/
def resolve (cwd p : String) : Option String :=
  match p.data with
  | [] => none
  | '/' :: _ => some p
  | _ => some (cwd ++ "/" ++ p)

/-- The answer of `os.Stat(p)` in environment `env`. -/
def statAt (env : Env) (p : String) : StatRet :=
  match resolve env.cwd p with
  | none => ⟨none, some .notExist⟩
  | some q => env.stat q

/-- The answer of `ioutil.ReadDir(p)` in environment `env`. -/
def readDirAt (env : Env) (p : String) : ReadDirRet :=
  match resolve env.cwd p with
  | none => ⟨[], some .notExist⟩
  | some q => env.readDir q

/-- Go `os.Stat`. -/
def os.Stat (env : Env) (p : String) : Run StatRet :=
  call (.stat p) (.ok (statAt env p))

/-- Go `ioutil.ReadDir`. -/
def ioutil.ReadDir (env : Env) (p : String) : Run ReadDirRet :=
  call (.readDir p) (.ok (readDirAt env p))

/-- Go `os.IsNotExist`: true only for the not-found kind of error. -/
def os.IsNotExist : Option OsError → Bool
  | some .notExist => true
  | _ => false

/-- Go `fmt.Println`. -/
def fmt.Println (s : String) : Run Unit := call (.println s) (.ok ())

/-- Go `log.Fatal`: logs and exits the process. -/
def log.Fatal {α : Type} (_err : Option OsError) : Run α := ⟨[], .error .fatal⟩

/-- The `%s` rendering of a `[]string` by Go `fmt`: the elements separated by
blanks, in square brackets. -/
def fmtStrings (xs : List String) : String :=
  "[" ++ " ".intercalate xs ++ "]"

/-- The helper `getSystemdFile`, declared outside `dockerfiles.go`: the
environment supplies its answer. -/
def getSystemdFile (env : Env) (name : String) : Run StatRet :=
  call (.systemdFile name) (.ok (env.systemdFile name))

/-- The helper `getUserInfo`, declared outside `dockerfiles.go`: the environment
supplies its answer. -/
def getUserInfo (env : Env) (name : String) : Run (Nat × Nat) :=
  call (.userInfo name) (env.userInfo name)

/-- The helper `getGroupId`, declared outside `dockerfiles.go`: the environment
supplies its answer. -/
def getGroupId (env : Env) (name : String) : Run Nat :=
  call (.groupId name) (env.groupId name)

/-- Modelled from the spec: the helper `getFileOwner`, declared outside
`dockerfiles.go`.  Section 4.1: given file metadata it returns the owning user
ID and the owning group ID.  What it does with nil metadata is left to the
environment. -/
def getFileOwner (env : Env) (info : Option FileInfo) : Run (Nat × Nat) :=
  call (.fileOwner info)
    (match info with
     | some fi => .ok (fi.Uid, fi.Gid)
     | none => env.ownerOfNil)

/-- Bitwise complement of a `uint32`. -/
def not32 (r : Nat) : Nat := (2 ^ 32 - 1) ^^^ (r % 2 ^ 32)

/-- The lowest nine bits of the mode: owner, group, other by read, write,
execute. -/
def permBits (fi : FileInfo) : Nat := fi.Mode &&& 0o777

/-- Modelled from the spec: the helper `hasLeastPerms`, declared outside
`dockerfiles.go`.  Section 4.4: the actual permission bits pass if
`actual_bits & ~reference_mask == 0`, and the value reported back is the actual
observed value.  What it does with nil metadata is left to the environment. -/
def hasLeastPerms (env : Env) (info : Option FileInfo) (safePerms : Nat) :
    Run (Bool × Nat) :=
  call (.leastPerms info safePerms)
    (match info with
     | some fi => .ok (decide (permBits fi &&& not32 safePerms = 0), permBits fi)
     | none => env.permsOfNil)

/-- Modelled from the spec: the answer of the helper `GetProcCmdline`, declared
outside `dockerfiles.go`.  Section 4.3: find a live process whose executable
matches the name and return its argument vector; the second component is the
error flag, set when no process matches. -/
def procCmdline (env : Env) (procname : String) : List String × Bool :=
  match env.processes.find? (fun p => p.1 == procname) with
  | some p => (p.2, false)
  | none => ([], true)

/-- The helper `GetProcCmdline`: one look at the process table. -/
def GetProcCmdline (env : Env) (procname : String) : Run (List String × Bool) :=
  call (.procCmdline procname) (.ok (procCmdline env procname))

/-- Modelled from the spec: the helper `GetCmdOption`, declared outside
`dockerfiles.go`.  Section 4.3: whether the flag is present and its value, in
both the `--flag value` and the `--flag=value` form; section 7: a flag present
with no value is treated as absent; an absent flag has the empty value. -/
def GetCmdOption : List String → String → Bool × String
  | [], _ => (false, "")
  | a :: rest, opt =>
    if a = opt then
      match rest with
      | v :: _ => (true, v)
      | [] => (false, "")
    else if (opt ++ "=").data.isPrefixOf a.data then
      if (a.data.drop (opt.length + 1)).isEmpty then (false, "")
      else (true, String.mk (a.data.drop (opt.length + 1)))
    else GetCmdOption rest opt

/-! ## The rule catalog -/

/-- Rule 3.1, `CheckServiceOwner`. -/
def CheckServiceOwner (env : Env) : Run Result := do
  let res : Result := {}
  let res := { res with Name := "3.1 Verify that docker.service file ownership is set to root:root" }
  let refUser := "root"
  let ret ← getSystemdFile env "docker.service"
  if os.IsNotExist ret.err then
    return res.Info "File could not be accessed"
  else
    let (refUID, refGID) ← getUserInfo env refUser
    let (fileUID, fileGID) ← getFileOwner env ret.info
    if refUID == fileUID && refGID == fileGID then
      return res.Pass
    else
      let output := "User/group owner should be : " ++ refUser
      return res.Fail output

/-- Rule 3.2, `CheckServicePerms`. -/
def CheckServicePerms (env : Env) : Run Result := do
  let res : Result := {}
  let res := { res with Name := "3.2 Verify that docker.service file permissions are set to\n\t\t644 or more restrictive" }
  let refPerms := 0o644
  let ret ← getSystemdFile env "docker.service"
  if os.IsNotExist ret.err then
    return res.Info "File could not be accessed"
  else
    let (isLeast, perms) ← hasLeastPerms env ret.info refPerms
    if isLeast == true then
      return { res with Status := "PASS" }
    else
      return { res with
        Status := "WARN",
        Output := "File has less restrictive permissions than expected: " ++ env.fmtPerms perms }

/-- Rule 3.3, `CheckSocketOwner`. -/
def CheckSocketOwner (env : Env) : Run Result := do
  let res : Result := {}
  let res := { res with Name := "3.3 Verify that docker.socket file ownership is set to root:root" }
  let refUser := "root"
  let ret ← getSystemdFile env "docker.socket"
  if os.IsNotExist ret.err then
    return res.Info "File could not be accessed"
  else
    let (refUid, refGid) ← getUserInfo env refUser
    let (fileUid, fileGid) ← getFileOwner env ret.info
    if refUid == fileUid && refGid == fileGid then
      return { res with Status := "PASS" }
    else
      return { res with
        Status := "WARN",
        Output := "User/group owner should be : " ++ refUser }

/-- Rule 3.4, `CheckSocketPerms`. -/
def CheckSocketPerms (env : Env) : Run Result := do
  let res : Result := {}
  let res := { res with Name := "3.4 Verify that docker.socket file permissions are set to 644 or more\n        restrictive" }
  let refPerms := 0o644
  let ret ← getSystemdFile env "docker.socket"
  if os.IsNotExist ret.err then
    return res.Info "File could not be accessed"
  else
    let (isLeast, perms) ← hasLeastPerms env ret.info refPerms
    if isLeast == true then
      return { res with Status := "PASS" }
    else
      return { res with
        Status := "WARN",
        Output := "File has less restrictive permissions than expected: " ++ env.fmtPerms perms }

/-- Rule 3.5, `CheckDockerDirOwner`. -/
def CheckDockerDirOwner (env : Env) : Run Result := do
  let res : Result := {}
  let res := { res with Name := "3.5 Verify that /etc/docker directory ownership is set to root:root " }
  let refUser := "root"
  let ret ← os.Stat env "/etc/docker"
  if os.IsNotExist ret.err then
    return res.Info "File could not be accessed"
  else
    let (refUid, refGid) ← getUserInfo env refUser
    let (fileUid, fileGid) ← getFileOwner env ret.info
    if refUid == fileUid && refGid == fileGid then
      return { res with Status := "PASS" }
    else
      return { res with
        Status := "WARN",
        Output := "User/group owner should be : " ++ refUser }

/-- Rule 3.6, `CheckDockerDirPerms`. -/
def CheckDockerDirPerms (env : Env) : Run Result := do
  let res : Result := {}
  let res := { res with Name := "3.6 Verify that /etc/docker directory permissions\n\t\tare set to 755 or more restrictive" }
  let refPerms := 0o755
  let ret ← os.Stat env "/etc/docker"
  if os.IsNotExist ret.err then
    return res.Info "File could not be accessed"
  else
    let (isLeast, perms) ← hasLeastPerms env ret.info refPerms
    if isLeast == true then
      return { res with Status := "PASS" }
    else
      return { res with
        Status := "WARN",
        Output := "File has less restrictive permissions than expected: " ++ env.fmtPerms perms }

/-- The inner loop of `CheckRegistryCertOwner`: `for _, cert := range certs`,
with `err` the error variable of the enclosing block. -/
def CheckRegistryCertOwner.certLoop (env : Env) (refUid refGid : Nat) (err : Option OsError) :
    List FileInfo → List String → Run (List String)
  | [], badFiles => pure badFiles
  | cert :: rest, badFiles => do
    if err.isSome then
      log.Fatal err
    else
      let (fileUid, fileGid) ← getFileOwner env (some cert)
      if refUid != fileUid || refGid != fileGid then
        CheckRegistryCertOwner.certLoop env refUid refGid err rest (badFiles ++ [cert.Name])
      else
        CheckRegistryCertOwner.certLoop env refUid refGid err rest badFiles

/-- The outer loop of `CheckRegistryCertOwner`: `for _, file := range files`. -/
def CheckRegistryCertOwner.fileLoop (env : Env) (refUid refGid : Nat) :
    List FileInfo → List String → Run (List String)
  | [], badFiles => pure badFiles
  | file :: rest, badFiles => do
    fmt.Println file.Name
    if file.IsDir then
      let certs ← ioutil.ReadDir env file.Name
      if certs.err.isSome then
        log.Fatal certs.err
      else
        let badFiles ← CheckRegistryCertOwner.certLoop env refUid refGid certs.err certs.list badFiles
        CheckRegistryCertOwner.fileLoop env refUid refGid rest badFiles
    else
      CheckRegistryCertOwner.fileLoop env refUid refGid rest badFiles

/-- Rule 3.7, `CheckRegistryCertOwner`. -/
def CheckRegistryCertOwner (env : Env) : Run Result := do
  let badFiles : List String := []
  let res : Result := {}
  let res := { res with Name := "3.7 Verify that registry certificate file ownership\n\t is set to root:root" }
  let refUser := "root"
  let (refUid, refGid) ← getUserInfo env refUser
  let files ← ioutil.ReadDir env "/etc/docker/certs.d/"
  if files.err.isSome then
    return { res with Status := "INFO", Output := "Directory is inaccessible" }
  else
    let badFiles ← CheckRegistryCertOwner.fileLoop env refUid refGid files.list badFiles
    if badFiles.length == 0 then
      return { res with Status := "PASS" }
    else
      return { res with
        Status := "WARN",
        Output := "Certificate files do not have " ++ refUser ++ " as owner : " ++ fmtStrings badFiles }

/-- The inner loop of `CheckRegistryCertPerms`: `for _, cert := range certs`,
with `err` the error variable of the enclosing block. -/
def CheckRegistryCertPerms.certLoop (env : Env) (refPerms : Nat) (err : Option OsError) :
    List FileInfo → List String → Run (List String)
  | [], badFiles => pure badFiles
  | cert :: rest, badFiles => do
    if err.isSome then
      log.Fatal err
    else
      let (isLeast, _) ← hasLeastPerms env (some cert) refPerms
      if isLeast == false then
        CheckRegistryCertPerms.certLoop env refPerms err rest (badFiles ++ [cert.Name])
      else
        CheckRegistryCertPerms.certLoop env refPerms err rest badFiles

/-- The outer loop of `CheckRegistryCertPerms`: `for _, file := range files`. -/
def CheckRegistryCertPerms.fileLoop (env : Env) (refPerms : Nat) :
    List FileInfo → List String → Run (List String)
  | [], badFiles => pure badFiles
  | file :: rest, badFiles => do
    fmt.Println file.Name
    if file.IsDir then
      let certs ← ioutil.ReadDir env file.Name
      if certs.err.isSome then
        log.Fatal certs.err
      else
        let badFiles ← CheckRegistryCertPerms.certLoop env refPerms certs.err certs.list badFiles
        CheckRegistryCertPerms.fileLoop env refPerms rest badFiles
    else
      CheckRegistryCertPerms.fileLoop env refPerms rest badFiles

/-- Rule 3.8, `CheckRegistryCertPerms`. -/
def CheckRegistryCertPerms (env : Env) : Run Result := do
  let badFiles : List String := []
  let res : Result := {}
  let res := { res with Name := "3.8 Verify that registry certificate file permissions\n\t\tare set to 444 or more restrictive" }
  let refPerms := 0o444
  let files ← ioutil.ReadDir env "/etc/docker/certs.d/"
  if files.err.isSome then
    return { res with Status := "INFO", Output := "Directory is inaccessible" }
  else
    let badFiles ← CheckRegistryCertPerms.fileLoop env refPerms files.list badFiles
    if badFiles.length == 0 then
      return { res with Status := "PASS" }
    else
      return { res with
        Status := "WARN",
        Output := "Certificate files do not have required permissions: " ++ fmtStrings badFiles }

/-- Rule 3.9, `CheckCACertOwner`. -/
def CheckCACertOwner (env : Env) : Run Result := do
  let res : Result := {}
  let res := { res with Name := "3.9 Verify that TLS CA certificate file ownership is set to root:root" }
  let refUser := "root"
  let (dockerProc, _) ← GetProcCmdline env "docker"
  let (_, certPath) := GetCmdOption dockerProc "--tlscacert"
  let ret ← os.Stat env certPath
  if os.IsNotExist ret.err then
    return res.Info "File could not be accessed"
  else
    let (refUid, refGid) ← getUserInfo env refUser
    let (fileUid, fileGid) ← getFileOwner env ret.info
    if refUid == fileUid && refGid == fileGid then
      return { res with Status := "PASS" }
    else
      return { res with
        Status := "WARN",
        Output := "User/group owner should be : " ++ refUser }

/-- Rule 3.10, `CheckCACertPerms`. -/
def CheckCACertPerms (env : Env) : Run Result := do
  let res : Result := {}
  let res := { res with Name := "3.10 Verify that TLS CA certificate file permissions\n\tare set to 444 or more restrictive" }
  let refPerms := 0o444
  let (dockerProc, _) ← GetProcCmdline env "docker"
  let (_, certPath) := GetCmdOption dockerProc "--tlscacert"
  let ret ← os.Stat env certPath
  if os.IsNotExist ret.err then
    return res.Info "File could not be accessed"
  else
    let (isLeast, perms) ← hasLeastPerms env ret.info refPerms
    if isLeast == true then
      return { res with Status := "PASS" }
    else
      return { res with
        Status := "WARN",
        Output := "File has less restrictive permissions than expected: " ++ env.fmtPerms perms }

/-- Rule 3.11, `CheckServerCertOwner`. -/
def CheckServerCertOwner (env : Env) : Run Result := do
  let res : Result := {}
  let res := { res with Name := "3.11 Verify that Docker server certificate file ownership is set to\n        root:root" }
  let refUser := "root"
  let (dockerProc, _) ← GetProcCmdline env "docker"
  let (_, certPath) := GetCmdOption dockerProc "--tlscert"
  let ret ← os.Stat env certPath
  if os.IsNotExist ret.err then
    return res.Info "File could not be accessed"
  else
    let (refUid, refGid) ← getUserInfo env refUser
    let (fileUid, fileGid) ← getFileOwner env ret.info
    if refUid == fileUid && refGid == fileGid then
      return { res with Status := "PASS" }
    else
      return { res with
        Status := "WARN",
        Output := "User/group owner should be : " ++ refUser }

/-- Rule 3.12, `CheckServerCertPerms`. -/
def CheckServerCertPerms (env : Env) : Run Result := do
  let res : Result := {}
  let res := { res with Name := "3.12 Verify that Docker server certificate file permissions\n\t\tare set to 444 or more restrictive" }
  let refPerms := 0o444
  let (dockerProc, _) ← GetProcCmdline env "docker"
  let (_, certPath) := GetCmdOption dockerProc "--tlscert"
  let ret ← os.Stat env certPath
  if os.IsNotExist ret.err then
    return res.Info "File could not be accessed"
  else
    let (isLeast, perms) ← hasLeastPerms env ret.info refPerms
    if isLeast == true then
      return { res with Status := "PASS" }
    else
      return { res with
        Status := "WARN",
        Output := "File has less restrictive permissions than expected: " ++ env.fmtPerms perms }

/-- Rule 3.13, `CheckCertKeyOwner`. -/
def CheckCertKeyOwner (env : Env) : Run Result := do
  let res : Result := {}
  let res := { res with Name := "3.13 Verify that Docker server certificate key file ownership is set to\n        root:root" }
  let refUser := "root"
  let (dockerProc, _) ← GetProcCmdline env "docker"
  let (_, certPath) := GetCmdOption dockerProc "--tlskey"
  let ret ← os.Stat env certPath
  if os.IsNotExist ret.err then
    return res.Info "File could not be accessed"
  else
    let (refUid, refGid) ← getUserInfo env refUser
    let (fileUid, fileGid) ← getFileOwner env ret.info
    if refUid == fileUid && refGid == fileGid then
      return { res with Status := "PASS" }
    else
      return { res with
        Status := "WARN",
        Output := "User/group owner should be : " ++ refUser }

/-- Rule 3.14, `CheckCertKeyPerms`. -/
def CheckCertKeyPerms (env : Env) : Run Result := do
  let res : Result := {}
  let res := { res with Name := "3.14 Verify that Docker server certificate key file\n\tpermissions are set to 400" }
  let refPerms := 0o400
  let (dockerProc, _) ← GetProcCmdline env "docker"
  let (_, certPath) := GetCmdOption dockerProc "--tlskey"
  let ret ← os.Stat env certPath
  if os.IsNotExist ret.err then
    return res.Info "File could not be accessed"
  else
    let (isLeast, perms) ← hasLeastPerms env ret.info refPerms
    if isLeast == true then
      return { res with Status := "PASS" }
    else
      return { res with
        Status := "WARN",
        Output := "File has less restrictive permissions than expected: " ++ env.fmtPerms perms }

/-- Rule 3.15, `CheckDockerSockOwner`. -/
def CheckDockerSockOwner (env : Env) : Run Result := do
  let res : Result := {}
  let res := { res with Name := "3.15 Verify that Docker socket file ownership\n\tis set to root:docker" }
  let refUser := "root"
  let refGroup := "docker"
  let ret ← os.Stat env "/var/run/docker.sock"
  if os.IsNotExist ret.err then
    return res.Info "File could not be accessed"
  else
    let (refUid, _) ← getUserInfo env refUser
    let refGid ← getGroupId env refGroup
    let (fileUid, fileGid) ← getFileOwner env ret.info
    if refUid == fileUid && refGid == fileGid then
      return { res with Status := "PASS" }
    else
      return { res with
        Status := "WARN",
        Output := "User/group owner should be : " ++ refGroup }

/-- Rule 3.16, `CheckDockerSockPerms`. -/
def CheckDockerSockPerms (env : Env) : Run Result := do
  let res : Result := {}
  let res := { res with Name := "3.16 Verify that Docker socket file permissions are set to 660" }
  let refPerms := 0o660
  let ret ← os.Stat env "/var/run/docker.sock"
  if os.IsNotExist ret.err then
    return res.Info "File could not be accessed"
  else
    let (isLeast, perms) ← hasLeastPerms env ret.info refPerms
    if isLeast == true then
      return { res with Status := "PASS" }
    else
      return { res with
        Status := "WARN",
        Output := "File has less restrictive permissions than expected: " ++ env.fmtPerms perms }

/-- The inert rule `CheckDaemonJSONOwner`: it returns the zero Result. -/
def CheckDaemonJSONOwner (_env : Env) : Run Result := do
  let res : Result := {}
  return res

/-- The inert rule `CheckDaemonJSONPerms`: it returns the zero Result. -/
def CheckDaemonJSONPerms (_env : Env) : Run Result := do
  let res : Result := {}
  return res

/-- The inert rule `CheckDefaultOwner`: it returns the zero Result. -/
def CheckDefaultOwner (_env : Env) : Run Result := do
  let res : Result := {}
  return res

/-- The inert rule `CheckDefaultPerms`: it returns the zero Result. -/
def CheckDefaultPerms (_env : Env) : Run Result := do
  let res : Result := {}
  return res

/-! ## The catalog as data -/

/-- The rules of `dockerfiles.go`, one constructor per function. -/
inductive Rule where
  | ServiceOwner | ServicePerms | SocketOwner | SocketPerms
  | DockerDirOwner | DockerDirPerms | RegistryCertOwner | RegistryCertPerms
  | CACertOwner | CACertPerms | ServerCertOwner | ServerCertPerms
  | CertKeyOwner | CertKeyPerms | DockerSockOwner | DockerSockPerms
  | DaemonJSONOwner | DaemonJSONPerms | DefaultOwner | DefaultPerms
  deriving DecidableEq, Repr

/-- The function a rule names. -/
def Rule.run : Rule → Env → Run Result
  | .ServiceOwner => CheckServiceOwner
  | .ServicePerms => CheckServicePerms
  | .SocketOwner => CheckSocketOwner
  | .SocketPerms => CheckSocketPerms
  | .DockerDirOwner => CheckDockerDirOwner
  | .DockerDirPerms => CheckDockerDirPerms
  | .RegistryCertOwner => CheckRegistryCertOwner
  | .RegistryCertPerms => CheckRegistryCertPerms
  | .CACertOwner => CheckCACertOwner
  | .CACertPerms => CheckCACertPerms
  | .ServerCertOwner => CheckServerCertOwner
  | .ServerCertPerms => CheckServerCertPerms
  | .CertKeyOwner => CheckCertKeyOwner
  | .CertKeyPerms => CheckCertKeyPerms
  | .DockerSockOwner => CheckDockerSockOwner
  | .DockerSockPerms => CheckDockerSockPerms
  | .DaemonJSONOwner => CheckDaemonJSONOwner
  | .DaemonJSONPerms => CheckDaemonJSONPerms
  | .DefaultOwner => CheckDefaultOwner
  | .DefaultPerms => CheckDefaultPerms

/-- The process flag a certificate rule derives its target path from. -/
def Rule.flag : Rule → Option String
  | .CACertOwner | .CACertPerms => some "--tlscacert"
  | .ServerCertOwner | .ServerCertPerms => some "--tlscert"
  | .CertKeyOwner | .CertKeyPerms => some "--tlskey"
  | _ => none

/-- The path a certificate rule derives from the argument vector of the
`docker` process. -/
def derivedPath (env : Env) (flag : String) : String :=
  (GetCmdOption (procCmdline env "docker").1 flag).2

/-- The metadata lookup of a single-file rule: what the rule's first lookup
answers in `env`.  The directory-tree rules and the inert rules have none. -/
def Rule.target (rule : Rule) (env : Env) : Option StatRet :=
  match rule with
  | .ServiceOwner | .ServicePerms => some (env.systemdFile "docker.service")
  | .SocketOwner | .SocketPerms => some (env.systemdFile "docker.socket")
  | .DockerDirOwner | .DockerDirPerms => some (statAt env "/etc/docker")
  | .CACertOwner | .CACertPerms => some (statAt env (derivedPath env "--tlscacert"))
  | .ServerCertOwner | .ServerCertPerms => some (statAt env (derivedPath env "--tlscert"))
  | .CertKeyOwner | .CertKeyPerms => some (statAt env (derivedPath env "--tlskey"))
  | .DockerSockOwner | .DockerSockPerms => some (statAt env "/var/run/docker.sock")
  | _ => none

/-- The reference mask of a single-file permission rule. -/
def Rule.refPerms : Rule → Option Nat
  | .ServicePerms => some 0o644
  | .SocketPerms => some 0o644
  | .DockerDirPerms => some 0o755
  | .CACertPerms => some 0o444
  | .ServerCertPerms => some 0o444
  | .CertKeyPerms => some 0o400
  | .DockerSockPerms => some 0o660
  | _ => none

/-- The single-file ownership rules whose reference is user `root` alone. -/
def Rule.rootOwner : Rule → Bool
  | .ServiceOwner | .SocketOwner | .DockerDirOwner
  | .CACertOwner | .ServerCertOwner | .CertKeyOwner => true
  | _ => false

/-- The inert rules: declared, returning the zero Result. -/
def Rule.inert : Rule → Bool
  | .DaemonJSONOwner | .DaemonJSONPerms | .DefaultOwner | .DefaultPerms => true
  | _ => false

/-- Calls that belong to the evaluation proper: identity resolution and the
ownership or permission helpers. -/
def Event.isEvaluation : Event → Bool
  | .userInfo _ | .groupId _ | .fileOwner _ | .leastPerms _ _ => true
  | _ => false

/-! ## Concrete hosts -/

/-- Octal rendering of permission bits with a leading zero, as in `0664`. -/
def octal (n : Nat) : String := String.mk ('0' :: Nat.toDigits 8 n)

/-- A host on which nothing exists: no file, no directory, no process; the
identity database knows user `root` (0, 0) and group `docker` (999); the
helpers panic on nil metadata. -/
def bareHost : Env where
  cwd := "/root"
  stat := fun _ => ⟨none, some .notExist⟩
  readDir := fun _ => ⟨[], some .notExist⟩
  systemdFile := fun _ => ⟨none, some .notExist⟩
  userInfo := fun n => if n = "root" then .ok (0, 0) else .error .fatal
  groupId := fun n => if n = "docker" then .ok 999 else .error .fatal
  processes := []
  ownerOfNil := .error .panic
  permsOfNil := .error .panic
  fmtPerms := octal

/-- A regular file with the given name, mode and owner. -/
def regular (name : String) (mode uid gid : Nat) : FileInfo :=
  ⟨name, false, mode, uid, gid⟩

/-- A host whose `docker.service` unit file has the given mode and owner. -/
def serviceHost (mode uid gid : Nat) : Env :=
  { bareHost with
    systemdFile := fun n =>
      if n = "docker.service" then ⟨some (regular "docker.service" mode uid gid), none⟩
      else ⟨none, some .notExist⟩ }

/-- A host whose `/var/run/docker.sock` has the given mode and owner. -/
def sockHost (mode uid gid : Nat) : Env :=
  { bareHost with
    stat := fun q =>
      if q = "/var/run/docker.sock" then ⟨some (regular "docker.sock" mode uid gid), none⟩
      else ⟨none, some .notExist⟩ }

/-- A host on which reading the metadata of `/etc/docker` is refused
(permission denied), so `os.Stat` answers `(nil, err)`. -/
def deniedHost : Env :=
  { bareHost with
    stat := fun q =>
      if q = "/etc/docker" then ⟨none, some .permission⟩ else ⟨none, some .notExist⟩ }

/-- A host whose `docker` daemon was started with
`--tlscacert /root/.docker/ca.pem`, a path whose metadata the auditing user may
not read (permission denied). -/
def deniedCertHost : Env :=
  { bareHost with
    processes := [("docker", ["docker", "daemon", "--tlscacert", "/root/.docker/ca.pem"])]
    stat := fun q =>
      if q = "/root/.docker/ca.pem" then ⟨none, some .permission⟩ else ⟨none, some .notExist⟩ }

/-- The top-level certificate directory of the directory-tree rules. -/
def certsDir : String := "/etc/docker/certs.d/"

/-- The files a directory-tree rule evaluates in `env`: for every top-level
entry that is a directory, in order, the entries the rule reads for it. -/
def evaluatedFiles (env : Env) : List FileInfo :=
  ((readDirAt env certsDir).list.filter (fun d => d.IsDir)).flatMap
    (fun d => (readDirAt env d.Name).list)

/-- Every directory read a directory-tree rule makes in `env` succeeds. -/
def treeReadable (env : Env) : Bool :=
  (readDirAt env certsDir).err.isNone &&
    (readDirAt env certsDir).list.all
      (fun d => !d.IsDir || (readDirAt env d.Name).err.isNone)

/-- The certificate tree as it lies on disk: for every top-level entry of
`/etc/docker/certs.d/` that is a directory, in order, the entries of the path
made of the top-level directory joined with the entry name. -/
def treeFiles (env : Env) : List FileInfo :=
  ((readDirAt env certsDir).list.filter (fun d => d.IsDir)).flatMap
    (fun d => (readDirAt env (certsDir ++ d.Name)).list)

/-- The certificate tree on disk can be read: the top-level directory and every
directory `/etc/docker/certs.d/<entry>` under it. -/
def treeOnDiskReadable (env : Env) : Bool :=
  (readDirAt env certsDir).err.isNone &&
    (readDirAt env certsDir).list.all
      (fun d => !d.IsDir || (readDirAt env (certsDir ++ d.Name)).err.isNone)

/-- Non-compliance of a file under the ownership rule 3.7. -/
def ownerNonCompliant (refUid refGid : Nat) (cert : FileInfo) : Bool :=
  refUid != cert.Uid || refGid != cert.Gid

/-- Non-compliance of a file under the permission rule 3.8. -/
def permsNonCompliant (refPerms : Nat) (cert : FileInfo) : Bool :=
  !decide (permBits cert &&& not32 refPerms = 0)

/-- A directory entry that is itself a directory, owned by root. -/
def directory (name : String) : FileInfo :=
  ⟨name, true, 0o755, 0, 0⟩

/-- A host with one registry directory under `/etc/docker/certs.d/` holding
three certificate files, two of them not owned by root and one of them group
writable; a directory of the same name under `/srv/mirror` holds one compliant
file; the process runs in the directory `cwd`. -/
def registryHost (cwd : String) : Env :=
  { bareHost with
    cwd := cwd
    readDir := fun q =>
      if q = "/etc/docker/certs.d/" then
        ⟨[regular "README" 0o644 0 0, directory "registry.example.com"], none⟩
      else if q = "/etc/docker/certs.d/registry.example.com" then
        ⟨[regular "ca.crt" 0o444 0 0, regular "client.cert" 0o664 1000 1000,
          regular "client.key" 0o400 0 1000], none⟩
      else if q = "/srv/mirror/registry.example.com" then
        ⟨[regular "ca.crt" 0o444 0 0], none⟩
      else ⟨[], some .notExist⟩ }

/-- A host whose `/etc/docker/certs.d/` cannot be read. -/
def certsDeniedHost : Env :=
  { bareHost with
    readDir := fun q =>
      if q = "/etc/docker/certs.d/" then ⟨[], some .permission⟩ else ⟨[], some .notExist⟩ }

/-- A host, running in `/etc/docker/certs.d`, whose certificate directory lists
one registry directory that cannot be read. -/
def nestedDeniedHost : Env :=
  { bareHost with
    cwd := "/etc/docker/certs.d"
    readDir := fun q =>
      if q = "/etc/docker/certs.d/" then ⟨[directory "private.example.com"], none⟩
      else if q = "/etc/docker/certs.d/private.example.com" then ⟨[], some .permission⟩
      else ⟨[], some .notExist⟩ }

/-- The flag does not occur in the argument vector, in neither of the forms
`--flag` and `--flag=value`. -/
def flagAbsent (args : List String) (opt : String) : Bool :=
  args.all (fun a => a != opt && !(opt ++ "=").data.isPrefixOf a.data)

/-- A host whose `docker` daemon runs without any TLS flag. -/
def noTlsHost : Env :=
  { bareHost with
    processes := [("init", ["/sbin/init"]), ("docker", ["docker", "daemon", "-H", "fd://"])] }

/-! ## Basic facts -/

@[simp] theorem Run.pure_eq {α : Type} (a : α) : (Pure.pure a : Run α) = ⟨[], .ok a⟩ := rfl

@[simp] theorem Run.bind_eq {α β : Type} (m : Run α) (f : α → Run β) :
    (m >>= f) = Run.bind m f := rfl

theorem call_out {α : Type} (e : Event) (x : Except Abort α) : (call e x).out = x := rfl

/-- A sequence returns exactly when its first part returns and the rest,
run on that value, returns. -/
theorem Run.bind_out_eq_ok {α β : Type} (m : Run α) (f : α → Run β) (r : β) :
    (Run.bind m f).out = .ok r ↔ ∃ a, m.out = .ok a ∧ (f a).out = .ok r := by
  unfold Run.bind
  cases h : m.out <;> simp

theorem Run.bind_call_ok {α β : Type} (e : Event) (a : α) (f : α → Run β) :
    Run.bind (call e (.ok a)) f = ⟨e :: (f a).trace, (f a).out⟩ := rfl

theorem Run.mem_trace_bind_call {α β : Type} (e : Event) (x : Except Abort α) (f : α → Run β) :
    e ∈ (Run.bind (call e x) f).trace := by
  unfold Run.bind call
  cases x <;> simp

theorem Run.ite_out {α : Type} (c : Prop) [Decidable c] (a b : Run α) :
    (if c then a else b).out = if c then a.out else b.out := by
  split <;> rfl

theorem testBit_not32 (r i : Nat) :
    (not32 r).testBit i = (decide (i < 32) && !r.testBit i) := by
  unfold not32
  rw [Nat.testBit_xor, Nat.testBit_two_pow_sub_one, Nat.testBit_mod_two_pow]
  by_cases h : i < 32 <;> simp [h]

/-- The subset test against the complement says that every permission bit of
the file is a bit of the mask. -/
theorem and_not32_eq_zero_iff (a r : Nat) :
    a &&& not32 r = 0 ↔ ∀ i, i < 32 → a.testBit i = true → r.testBit i = true := by
  constructor
  · intro h i hi ha
    have hz : (a &&& not32 r).testBit i = false := by rw [h]; exact Nat.zero_testBit i
    rw [Nat.testBit_and, testBit_not32] at hz
    simp [hi, ha] at hz
    exact hz
  · intro h
    apply Nat.eq_of_testBit_eq
    intro i
    rw [Nat.testBit_and, testBit_not32, Nat.zero_testBit]
    by_cases hi : i < 32
    · by_cases ha : a.testBit i = true
      · simp [h i hi ha]
      · simp [ha]
    · simp [hi]

theorem permBits_lt (fi : FileInfo) : permBits fi < 512 := by
  unfold permBits
  exact lt_of_le_of_lt Nat.and_le_right (by decide)

theorem self_and_not32 (r : Nat) : r &&& not32 r = 0 :=
  (and_not32_eq_zero_iff r r).2 (fun _ _ h => h)

theorem extra_bit_and_not32 (r k : Nat) (hk : k < 9) (hr : r.testBit k = false) :
    (r ||| 2 ^ k) &&& not32 r ≠ 0 := by
  intro h
  have h1 := (and_not32_eq_zero_iff (r ||| 2 ^ k) r).1 h k (by omega)
    (by rw [Nat.testBit_or, Nat.testBit_two_pow_self]; simp)
  rw [hr] at h1
  exact Bool.noConfusion h1

/-- What a single-file permission rule returns on an existing target: the
named Result, PASS when the subset test holds, otherwise WARN with the observed
bits rendered. -/
theorem perms_rule_shape (rule : Rule) (R : Nat) (env : Env) (fi : FileInfo)
    (hR : rule.refPerms = some R) (ht : rule.target env = some ⟨some fi, none⟩) :
    ∃ n, (rule.run env).out = .ok
      (if permBits fi &&& not32 R = 0 then ⟨n, "PASS", ""⟩
       else ⟨n, "WARN", "File has less restrictive permissions than expected: "
              ++ env.fmtPerms (permBits fi)⟩) := by
  cases rule <;> simp [Rule.refPerms] at hR <;> subst hR <;>
    simp only [Rule.target, Option.some.injEq] at ht <;>
    simp [Rule.run, CheckServicePerms, CheckSocketPerms, CheckDockerDirPerms, CheckCACertPerms,
      CheckServerCertPerms, CheckCertKeyPerms, CheckDockerSockPerms, Run.bind, call,
      getSystemdFile, os.Stat, GetProcCmdline, derivedPath, hasLeastPerms, os.IsNotExist,
      Result.Info] at ht ⊢ <;>
    simp [ht, os.IsNotExist] <;>
    split <;> simp_all

/-! ## Single-file permission rules -/

/-- C1: for every single-file permission rule with reference mask `R` and every
existing target with permission bits `A`, the rule returns, its Status is PASS
exactly when `A & ~R == 0` (every bit of `A` is a bit of `R`), and otherwise its
Status is WARN and its Output cites the observed value `A`; `A = 0` passes,
`A = R` passes, and `A = R | extra_bit` fails. -/
theorem perms_rule_status (rule : Rule) (R : Nat) (env : Env) (fi : FileInfo)
    (hR : rule.refPerms = some R) (ht : rule.target env = some ⟨some fi, none⟩) :
    ∃ r, (rule.run env).out = .ok r ∧
      (r.Status = "PASS" ↔ permBits fi &&& not32 R = 0) ∧
      (r.Status = "PASS" ↔
        ∀ i, i < 9 → (permBits fi).testBit i = true → R.testBit i = true) ∧
      (r.Status ≠ "PASS" → r.Status = "WARN" ∧
        r.Output = "File has less restrictive permissions than expected: "
          ++ env.fmtPerms (permBits fi)) ∧
      (permBits fi = 0 → r.Status = "PASS") ∧
      (permBits fi = R → r.Status = "PASS") ∧
      (∀ k, k < 9 → R.testBit k = false → permBits fi = R ||| 2 ^ k →
        r.Status = "WARN") := by
  obtain ⟨n, hn⟩ := perms_rule_shape rule R env fi hR ht
  have hbits : permBits fi &&& not32 R = 0 ↔
      ∀ i, i < 9 → (permBits fi).testBit i = true → R.testBit i = true := by
    rw [and_not32_eq_zero_iff]
    constructor
    · intro h i hi
      exact h i (by omega)
    · intro h i _ hb
      by_cases hi : i < 9
      · exact h i hi hb
      · have hlt : permBits fi < 2 ^ i :=
          lt_of_lt_of_le (permBits_lt fi) (Nat.pow_le_pow_right (by decide) (by omega) : 2 ^ 9 ≤ 2 ^ i)
        rw [Nat.testBit_lt_two_pow hlt] at hb
        exact Bool.noConfusion hb
  by_cases h : permBits fi &&& not32 R = 0
  · rw [if_pos h] at hn
    refine ⟨_, hn, ?_, ?_, ?_, ?_, ?_, ?_⟩
    · simp [h]
    · simpa using hbits.1 h
    · simp
    · simp
    · simp
    · intro k hk hr hA
      rw [hA] at h
      exact absurd h (extra_bit_and_not32 R k hk hr)
  · rw [if_neg h] at hn
    refine ⟨_, hn, ?_, ?_, ?_, ?_, ?_, ?_⟩
    · simp [h]
    · simpa using fun hall => h (hbits.2 hall)
    · simp
    · intro hA
      rw [hA, Nat.zero_and] at h
      exact absurd rfl h
    · intro hA
      rw [hA] at h
      exact absurd (self_and_not32 R) h
    · simp

/-- C1, at a concrete host: `docker.service` (mask 0644) with mode 0664 gives
WARN citing 0664, and the hypotheses of `perms_rule_status` hold there. -/
theorem perms_rule_status_witness :
    (Rule.refPerms .ServicePerms = some 0o644 ∧
      Rule.target .ServicePerms (serviceHost 0o664 0 0)
        = some ⟨some (regular "docker.service" 0o664 0 0), none⟩) ∧
    (CheckServicePerms (serviceHost 0o640 0 0)).out = .ok
      ⟨"3.2 Verify that docker.service file permissions are set to\n\t\t644 or more restrictive",
        "PASS", ""⟩ ∧
    (CheckServicePerms (serviceHost 0o664 0 0)).out = .ok
      ⟨"3.2 Verify that docker.service file permissions are set to\n\t\t644 or more restrictive",
        "WARN", "File has less restrictive permissions than expected: 0664"⟩ ∧
    ∃ r, (Rule.run .ServicePerms (serviceHost 0o664 0 0)).out = .ok r ∧
      (r.Status = "PASS" ↔ permBits (regular "docker.service" 0o664 0 0) &&& not32 0o644 = 0) :=
  ⟨⟨rfl, rfl⟩, rfl, rfl,
    (perms_rule_status .ServicePerms 0o644 (serviceHost 0o664 0 0)
      (regular "docker.service" 0o664 0 0) rfl rfl).imp (fun _ h => ⟨h.1, h.2.1⟩)⟩

/-! ## Single-file ownership rules -/

/-- What a single-file `root` ownership rule returns on an existing target once
the identity lookup has answered. -/
theorem owner_rule_shape (rule : Rule) (env : Env) (fi : FileInfo) (refUID refGID : Nat)
    (hr : rule.rootOwner = true) (ht : rule.target env = some ⟨some fi, none⟩)
    (hu : env.userInfo "root" = .ok (refUID, refGID)) :
    ∃ n, (rule.run env).out = .ok
      (if refUID = fi.Uid ∧ refGID = fi.Gid then ⟨n, "PASS", ""⟩
       else ⟨n, "WARN", "User/group owner should be : root"⟩) := by
  cases rule <;> simp [Rule.rootOwner] at hr <;>
    simp only [Rule.target, Option.some.injEq] at ht <;>
    simp [Rule.run, CheckServiceOwner, CheckSocketOwner, CheckDockerDirOwner, CheckCACertOwner,
      CheckServerCertOwner, CheckCertKeyOwner, Run.bind, call,
      getSystemdFile, os.Stat, GetProcCmdline, derivedPath, getUserInfo, getFileOwner,
      os.IsNotExist, Result.Info, Result.Pass, Result.Fail] at ht ⊢ <;>
    simp [ht, hu, os.IsNotExist] <;>
    split <;> simp_all

/-- C2: for every single-file ownership rule with reference user root, every
reference pair `(refUID, refGID)` and every existing target owned by
`(fileUID, fileGID)`, the rule returns, its Status is PASS exactly when both
components match, a mismatch in either component alone gives WARN, and the WARN
Output names root as the expected owner. -/
theorem owner_rule_status (rule : Rule) (env : Env) (fi : FileInfo) (refUID refGID : Nat)
    (hr : rule.rootOwner = true) (ht : rule.target env = some ⟨some fi, none⟩)
    (hu : env.userInfo "root" = .ok (refUID, refGID)) :
    ∃ r, (rule.run env).out = .ok r ∧
      (r.Status = "PASS" ↔ refUID = fi.Uid ∧ refGID = fi.Gid) ∧
      (refUID ≠ fi.Uid → r.Status = "WARN") ∧
      (refGID ≠ fi.Gid → r.Status = "WARN") ∧
      (r.Status ≠ "PASS" →
        r.Status = "WARN" ∧ r.Output = "User/group owner should be : root") := by
  obtain ⟨n, hn⟩ := owner_rule_shape rule env fi refUID refGID hr ht hu
  by_cases h : refUID = fi.Uid ∧ refGID = fi.Gid
  · rw [if_pos h] at hn
    refine ⟨_, hn, ?_, ?_, ?_, ?_⟩
    · simp [h]
    · intro hne
      exact absurd h.1 hne
    · intro hne
      exact absurd h.2 hne
    · simp
  · rw [if_neg h] at hn
    refine ⟨_, hn, ?_, ?_, ?_, ?_⟩
    · simp [h]
    · simp
    · simp
    · simp

/-- C2, at a concrete host: `docker.service` owned by UID 1000 gives WARN
naming root, owned by root it gives PASS, and the hypotheses of
`owner_rule_status` hold there. -/
theorem owner_rule_status_witness :
    (Rule.rootOwner .ServiceOwner = true ∧
      Rule.target .ServiceOwner (serviceHost 0o644 1000 0)
        = some ⟨some (regular "docker.service" 0o644 1000 0), none⟩ ∧
      (serviceHost 0o644 1000 0).userInfo "root" = .ok (0, 0)) ∧
    (CheckServiceOwner (serviceHost 0o644 0 0)).out = .ok
      ⟨"3.1 Verify that docker.service file ownership is set to root:root", "PASS", ""⟩ ∧
    (CheckServiceOwner (serviceHost 0o644 1000 0)).out = .ok
      ⟨"3.1 Verify that docker.service file ownership is set to root:root", "WARN",
        "User/group owner should be : root"⟩ ∧
    ∃ r, (Rule.run .ServiceOwner (serviceHost 0o644 1000 0)).out = .ok r ∧
      (r.Status = "PASS" ↔
        0 = (regular "docker.service" 0o644 1000 0).Uid ∧
        0 = (regular "docker.service" 0o644 1000 0).Gid) :=
  ⟨⟨rfl, rfl, rfl⟩, rfl, rfl,
    (owner_rule_status .ServiceOwner (serviceHost 0o644 1000 0)
      (regular "docker.service" 0o644 1000 0) 0 0 rfl rfl rfl).imp (fun _ h => ⟨h.1, h.2.1⟩)⟩

/-- C5: for the Docker socket ownership rule on an existing
`/var/run/docker.sock`, Status is PASS exactly when the file UID is the UID of
user root and the file GID is the GID of the named group docker; the primary
group of root plays no part.  Otherwise Status is WARN. -/
theorem docker_sock_owner_status (env : Env) (fi : FileInfo) (rootUID rootGID dockerGID : Nat)
    (ht : statAt env "/var/run/docker.sock" = ⟨some fi, none⟩)
    (hu : env.userInfo "root" = .ok (rootUID, rootGID))
    (hg : env.groupId "docker" = .ok dockerGID) :
    ∃ r, (CheckDockerSockOwner env).out = .ok r ∧
      (r.Status = "PASS" ↔ fi.Uid = rootUID ∧ fi.Gid = dockerGID) ∧
      (r.Status ≠ "PASS" →
        r.Status = "WARN" ∧ r.Output = "User/group owner should be : docker") := by
  have hs : (CheckDockerSockOwner env).out = .ok
      (if rootUID = fi.Uid ∧ dockerGID = fi.Gid then
        ⟨"3.15 Verify that Docker socket file ownership\n\tis set to root:docker", "PASS", ""⟩
       else
        ⟨"3.15 Verify that Docker socket file ownership\n\tis set to root:docker", "WARN",
          "User/group owner should be : docker"⟩) := by
    simp [CheckDockerSockOwner, Run.bind, call, os.Stat, getUserInfo, getGroupId,
      getFileOwner, ht, hu, hg, os.IsNotExist]
    split <;> simp_all
  by_cases h : rootUID = fi.Uid ∧ dockerGID = fi.Gid
  · rw [if_pos h] at hs
    exact ⟨_, hs, by simp [h.1, h.2], by simp⟩
  · rw [if_neg h] at hs
    refine ⟨_, hs, ?_, by simp⟩
    simp only [String.reduceEq, false_iff]
    intro h1
    exact h ⟨h1.1.symm, h1.2.symm⟩

/-- C5, at concrete hosts: a socket owned by (0, GID of docker) gives PASS, one
owned by (0, 50) gives WARN, and the hypotheses of `docker_sock_owner_status`
hold there. -/
theorem docker_sock_owner_status_witness :
    (statAt (sockHost 0o660 0 50) "/var/run/docker.sock"
        = ⟨some (regular "docker.sock" 0o660 0 50), none⟩ ∧
      (sockHost 0o660 0 50).userInfo "root" = .ok (0, 0) ∧
      (sockHost 0o660 0 50).groupId "docker" = .ok 999) ∧
    (CheckDockerSockOwner (sockHost 0o660 0 999)).out = .ok
      ⟨"3.15 Verify that Docker socket file ownership\n\tis set to root:docker", "PASS", ""⟩ ∧
    (CheckDockerSockOwner (sockHost 0o660 0 50)).out = .ok
      ⟨"3.15 Verify that Docker socket file ownership\n\tis set to root:docker", "WARN",
        "User/group owner should be : docker"⟩ ∧
    (CheckDockerSockOwner (sockHost 0o660 0 0)).out = .ok
      ⟨"3.15 Verify that Docker socket file ownership\n\tis set to root:docker", "WARN",
        "User/group owner should be : docker"⟩ ∧
    ∃ r, (CheckDockerSockOwner (sockHost 0o660 0 50)).out = .ok r ∧
      (r.Status = "PASS" ↔
        (regular "docker.sock" 0o660 0 50).Uid = 0 ∧
        (regular "docker.sock" 0o660 0 50).Gid = 999) :=
  ⟨⟨rfl, rfl, rfl⟩, rfl, rfl, rfl,
    (docker_sock_owner_status (sockHost 0o660 0 50) (regular "docker.sock" 0o660 0 50) 0 0 999
      rfl rfl rfl).imp (fun _ h => ⟨h.1, h.2.1⟩)⟩

/-! ## Inaccessible targets -/

/-- C4: for every single-file rule, when the lookup of the target reports
not-found the rule returns Status INFO with Output "File could not be accessed",
it has made no identity-resolution, ownership or permission call, and the run is
the same whatever the identity database and the helpers would have answered. -/
theorem missing_target_short_circuit (rule : Rule) (env : Env) (t : StatRet)
    (ht : rule.target env = some t) (he : t.err = some .notExist) :
    (∃ n, (rule.run env).out = .ok ⟨n, "INFO", "File could not be accessed"⟩) ∧
    (∀ e ∈ (rule.run env).trace, e.isEvaluation = false) ∧
    (∀ u g o p, rule.run { env with userInfo := u, groupId := g, ownerOfNil := o, permsOfNil := p }
      = rule.run env) := by
  cases rule <;> simp only [Rule.target, Option.some.injEq, reduceCtorEq] at ht <;> subst ht <;>
    simp [Rule.run, CheckServiceOwner, CheckServicePerms, CheckSocketOwner, CheckSocketPerms,
      CheckDockerDirOwner, CheckDockerDirPerms, CheckCACertOwner, CheckCACertPerms,
      CheckServerCertOwner, CheckServerCertPerms, CheckCertKeyOwner, CheckCertKeyPerms,
      CheckDockerSockOwner, CheckDockerSockPerms, Run.bind, call,
      getSystemdFile, os.Stat, GetProcCmdline, derivedPath, procCmdline, statAt,
      os.IsNotExist, Result.Info, Event.isEvaluation] at he ⊢ <;>
    simp [he, os.IsNotExist, Event.isEvaluation]

/-- C4, at a concrete host: on the bare host `/etc/docker` does not exist and
`CheckDockerDirPerms` short-circuits after the single stat. -/
theorem missing_target_short_circuit_witness :
    (Rule.target .DockerDirPerms bareHost = some ⟨none, some .notExist⟩ ∧
      (⟨none, some .notExist⟩ : StatRet).err = some .notExist) ∧
    CheckDockerDirPerms bareHost =
      ⟨[.stat "/etc/docker"],
        .ok ⟨"3.6 Verify that /etc/docker directory permissions\n\t\tare set to 755 or more restrictive",
          "INFO", "File could not be accessed"⟩⟩ ∧
    ∀ e ∈ (Rule.run .DockerDirPerms bareHost).trace, e.isEvaluation = false :=
  ⟨⟨rfl, rfl⟩, rfl,
    (missing_target_short_circuit .DockerDirPerms bareHost ⟨none, some .notExist⟩ rfl rfl).2.1⟩

/-- C6 (the code departs from it): for every single-file rule, when reading the
target metadata fails with an error other than not-found, the rule does not
take the INFO short-circuit: it goes on to the evaluation calls, and no Result
it returns has Status INFO. -/
theorem other_error_not_short_circuited (rule : Rule) (env : Env) (t : StatRet) (e : OsError)
    (ht : rule.target env = some t) (he : t.err = some e) (hne : e ≠ .notExist) :
    (∃ ev ∈ (rule.run env).trace, ev.isEvaluation = true) ∧
    (∀ r, (rule.run env).out = .ok r → r.Status ≠ "INFO") := by
  have hx : os.IsNotExist t.err = false := by
    rw [he]; cases e <;> simp_all [os.IsNotExist]
  cases rule <;> simp only [Rule.target, Option.some.injEq, reduceCtorEq] at ht <;> subst ht <;>
    simp only [derivedPath] at hx <;>
    simp only [Rule.run, CheckServiceOwner, CheckServicePerms, CheckSocketOwner, CheckSocketPerms,
      CheckDockerDirOwner, CheckDockerDirPerms, CheckCACertOwner, CheckCACertPerms,
      CheckServerCertOwner, CheckServerCertPerms, CheckCertKeyOwner, CheckCertKeyPerms,
      CheckDockerSockOwner, CheckDockerSockPerms, Run.bind_eq, Run.pure_eq,
      getSystemdFile, os.Stat, GetProcCmdline, getUserInfo, getGroupId, getFileOwner,
      hasLeastPerms, Run.bind_call_ok, hx, Bool.false_eq_true, if_false] <;>
    (constructor
     · first
       | exact ⟨_, List.mem_cons_of_mem _ (Run.mem_trace_bind_call _ _ _), rfl⟩
       | exact ⟨_, List.mem_cons_of_mem _
           (List.mem_cons_of_mem _ (Run.mem_trace_bind_call _ _ _)), rfl⟩
     · intro r hr
       simp only [Run.bind_out_eq_ok, call_out, Run.ite_out] at hr
       obtain ⟨_, -, hr⟩ := hr
       try obtain ⟨_, -, hr⟩ := hr
       try obtain ⟨_, -, hr⟩ := hr
       split at hr <;> simp only [Except.ok.injEq] at hr <;> subst hr <;>
         simp [Result.Pass, Result.Fail])

/-- C6, at the failing inputs: with permission denied on `/etc/docker`, and on
the certificate path named by `--tlscacert`, the rule looks up root, hands the
nil metadata to `getFileOwner` and the process panics; no Result is returned. -/
theorem other_error_not_short_circuited_witness :
    (Rule.target .DockerDirOwner deniedHost = some ⟨none, some .permission⟩ ∧
      (⟨none, some .permission⟩ : StatRet).err = some .permission ∧
      OsError.permission ≠ OsError.notExist) ∧
    CheckDockerDirOwner deniedHost =
      ⟨[.stat "/etc/docker", .userInfo "root", .fileOwner none], .error .panic⟩ ∧
    CheckCACertOwner deniedCertHost =
      ⟨[.procCmdline "docker", .stat "/root/.docker/ca.pem", .userInfo "root", .fileOwner none],
        .error .panic⟩ ∧
    CheckCACertPerms deniedCertHost =
      ⟨[.procCmdline "docker", .stat "/root/.docker/ca.pem", .leastPerms none 0o444],
        .error .panic⟩ ∧
    ∀ r, (Rule.run .DockerDirOwner deniedHost).out = .ok r → r.Status ≠ "INFO" :=
  ⟨⟨rfl, rfl, by decide⟩, rfl, rfl, rfl,
    (other_error_not_short_circuited .DockerDirOwner deniedHost ⟨none, some .permission⟩
      .permission rfl rfl (by decide)).2⟩

/-! ## The Result invariant -/

/-- C9: for every rule of the catalog and every environment in which it
returns, the Status of the returned Result is PASS, WARN, INFO or unset; a PASS
has an empty Output; an unset Status has an empty Output; and an inert rule
always returns the zero Result, whose unset Status is not PASS. -/
theorem result_invariant (rule : Rule) (env : Env) (r : Result)
    (h : (rule.run env).out = .ok r) :
    (r.Status = "PASS" ∨ r.Status = "WARN" ∨ r.Status = "INFO" ∨ r.Status = "") ∧
    (r.Status = "PASS" → r.Output = "") ∧
    (r.Status = "" → r.Output = "") ∧
    (rule.inert = true →
      rule.run env = ⟨[], .ok ⟨"", "", ""⟩⟩ ∧ r = ⟨"", "", ""⟩ ∧ r.Status ≠ "PASS") := by
  cases rule <;>
    simp only [Rule.run, CheckServiceOwner, CheckServicePerms, CheckSocketOwner, CheckSocketPerms,
      CheckDockerDirOwner, CheckDockerDirPerms, CheckCACertOwner, CheckCACertPerms,
      CheckServerCertOwner, CheckServerCertPerms, CheckCertKeyOwner, CheckCertKeyPerms,
      CheckDockerSockOwner, CheckDockerSockPerms, CheckRegistryCertOwner, CheckRegistryCertPerms,
      CheckDaemonJSONOwner, CheckDaemonJSONPerms, CheckDefaultOwner, CheckDefaultPerms,
      Run.bind_eq, Run.pure_eq,
      getSystemdFile, os.Stat, ioutil.ReadDir, GetProcCmdline, getUserInfo, getGroupId,
      getFileOwner, hasLeastPerms, Run.bind_call_ok, Run.ite_out] at h ⊢ <;>
    first
    | (simp only [Except.ok.injEq] at h
       subst h
       simp [Rule.inert]
       decide)
    | (split at h
       · simp only [Except.ok.injEq] at h
         subst h
         simp [Result.Info, Rule.inert]
       · simp only [Run.bind_out_eq_ok, call_out, Run.ite_out] at h
         obtain ⟨_, -, h⟩ := h
         try obtain ⟨_, -, h⟩ := h
         try obtain ⟨_, -, h⟩ := h
         split at h <;> simp only [Except.ok.injEq] at h <;> subst h <;>
           simp [Result.Pass, Result.Fail, Rule.inert])
    | (simp only [Run.bind_out_eq_ok, call_out, Run.ite_out] at h
       obtain ⟨_, -, h⟩ := h
       split at h
       · simp only [Except.ok.injEq] at h
         subst h
         simp [Rule.inert]
       · simp only [Run.bind_out_eq_ok, call_out, Run.ite_out] at h
         obtain ⟨_, -, h⟩ := h
         split at h <;> simp only [Except.ok.injEq] at h <;> subst h <;>
           simp [Rule.inert])

/-- C9, at concrete hosts: `CheckServiceOwner` returns on the service host and
the invariant holds of what it returns; the inert `CheckDefaultPerms` returns
the zero Result. -/
theorem result_invariant_witness :
    (Rule.run .ServiceOwner (serviceHost 0o644 1000 0)).out = .ok
      ⟨"3.1 Verify that docker.service file ownership is set to root:root", "WARN",
        "User/group owner should be : root"⟩ ∧
    (Rule.run .DefaultPerms bareHost).out = .ok ⟨"", "", ""⟩ ∧
    ((("WARN" : String) = "PASS" ∨ ("WARN" : String) = "WARN" ∨ ("WARN" : String) = "INFO"
        ∨ ("WARN" : String) = "") ∧
      (Rule.inert .DefaultPerms = true →
        Rule.run .DefaultPerms bareHost = ⟨[], .ok ⟨"", "", ""⟩⟩ ∧
        (⟨"", "", ""⟩ : Result) = ⟨"", "", ""⟩ ∧ (⟨"", "", ""⟩ : Result).Status ≠ "PASS")) :=
  ⟨rfl, rfl,
    (result_invariant .ServiceOwner (serviceHost 0o644 1000 0)
      ⟨"3.1 Verify that docker.service file ownership is set to root:root", "WARN",
        "User/group owner should be : root"⟩ rfl).1,
    (result_invariant .DefaultPerms bareHost ⟨"", "", ""⟩ rfl).2.2.2⟩

/-! ## Directory-tree rules -/

theorem Run.bind_out_of_ok {α β : Type} (m : Run α) (f : α → Run β) (a : α)
    (h : m.out = .ok a) : (Run.bind m f).out = (f a).out := by
  unfold Run.bind
  rw [h]

/-- The inner loop of rule 3.7 appends the names of the non-compliant entries,
in order. -/
theorem ownerCertLoop_out (env : Env) (refUid refGid : Nat) (certs : List FileInfo)
    (bad : List String) :
    (CheckRegistryCertOwner.certLoop env refUid refGid none certs bad).out
      = .ok (bad ++ (certs.filter (ownerNonCompliant refUid refGid)).map (fun c => c.Name)) := by
  induction certs generalizing bad with
  | nil => simp [CheckRegistryCertOwner.certLoop]
  | cons c rest ih =>
    simp only [CheckRegistryCertOwner.certLoop, Option.isSome_none, Bool.false_eq_true,
      if_false, Run.bind_eq, getFileOwner, Run.bind_call_ok]
    by_cases hc : ownerNonCompliant refUid refGid c = true
    · have hc2 : (refUid != c.Uid || refGid != c.Gid) = true := hc
      simp only [hc2, if_true, ih, List.filter_cons, hc, List.map_cons, List.append_assoc,
        List.singleton_append]
    · have hc2 : ¬ (refUid != c.Uid || refGid != c.Gid) = true := hc
      simp only [hc2, if_false, ih, List.filter_cons, hc, Bool.false_eq_true]

/-- The inner loop of rule 3.8 appends the names of the non-compliant entries,
in order. -/
theorem permsCertLoop_out (env : Env) (refPerms : Nat) (certs : List FileInfo)
    (bad : List String) :
    (CheckRegistryCertPerms.certLoop env refPerms none certs bad).out
      = .ok (bad ++ (certs.filter (permsNonCompliant refPerms)).map (fun c => c.Name)) := by
  induction certs generalizing bad with
  | nil => simp [CheckRegistryCertPerms.certLoop]
  | cons c rest ih =>
    simp only [CheckRegistryCertPerms.certLoop, Option.isSome_none, Bool.false_eq_true,
      if_false, Run.bind_eq, hasLeastPerms, Run.bind_call_ok]
    by_cases hc : permBits c &&& not32 refPerms = 0
    · simp [hc, ih, permsNonCompliant, List.filter_cons]
    · simp [hc, ih, permsNonCompliant, List.filter_cons]

/-- The outer loop of rule 3.7, when every nested read succeeds: the names of
the non-compliant entries of the listed directories, in order. -/
theorem ownerFileLoop_out (env : Env) (refUid refGid : Nat) (files : List FileInfo)
    (bad : List String)
    (h : ∀ d ∈ files, d.IsDir = true → (readDirAt env d.Name).err = none) :
    (CheckRegistryCertOwner.fileLoop env refUid refGid files bad).out
      = .ok (bad ++ (((files.filter (fun d => d.IsDir)).flatMap
          (fun d => (readDirAt env d.Name).list)).filter
            (ownerNonCompliant refUid refGid)).map (fun c => c.Name)) := by
  induction files generalizing bad with
  | nil => simp [CheckRegistryCertOwner.fileLoop]
  | cons f rest ih =>
    have hrest : ∀ d ∈ rest, d.IsDir = true → (readDirAt env d.Name).err = none :=
      fun d hd => h d (List.mem_cons_of_mem _ hd)
    simp only [CheckRegistryCertOwner.fileLoop, Run.bind_eq, fmt.Println, ioutil.ReadDir,
      Run.bind_call_ok]
    by_cases hf : f.IsDir = true
    · have he := h f (List.mem_cons_self _ _) hf
      simp only [hf, if_true, he, Option.isSome_none, Bool.false_eq_true, if_false]
      rw [Run.bind_out_of_ok _ _ _ (ownerCertLoop_out env refUid refGid _ bad), ih _ hrest]
      simp [List.filter_cons, hf, List.flatMap_cons]
    · simp only [hf, Bool.false_eq_true, if_false, ih _ hrest, List.filter_cons]

/-- The outer loop of rule 3.8, when every nested read succeeds: the names of
the non-compliant entries of the listed directories, in order. -/
theorem permsFileLoop_out (env : Env) (refPerms : Nat) (files : List FileInfo)
    (bad : List String)
    (h : ∀ d ∈ files, d.IsDir = true → (readDirAt env d.Name).err = none) :
    (CheckRegistryCertPerms.fileLoop env refPerms files bad).out
      = .ok (bad ++ (((files.filter (fun d => d.IsDir)).flatMap
          (fun d => (readDirAt env d.Name).list)).filter
            (permsNonCompliant refPerms)).map (fun c => c.Name)) := by
  induction files generalizing bad with
  | nil => simp [CheckRegistryCertPerms.fileLoop]
  | cons f rest ih =>
    have hrest : ∀ d ∈ rest, d.IsDir = true → (readDirAt env d.Name).err = none :=
      fun d hd => h d (List.mem_cons_of_mem _ hd)
    simp only [CheckRegistryCertPerms.fileLoop, Run.bind_eq, fmt.Println, ioutil.ReadDir,
      Run.bind_call_ok]
    by_cases hf : f.IsDir = true
    · have he := h f (List.mem_cons_self _ _) hf
      simp only [hf, if_true, he, Option.isSome_none, Bool.false_eq_true, if_false]
      rw [Run.bind_out_of_ok _ _ _ (permsCertLoop_out env refPerms _ bad), ih _ hrest]
      simp [List.filter_cons, hf, List.flatMap_cons]
    · simp only [hf, Bool.false_eq_true, if_false, ih _ hrest, List.filter_cons]

/-- The outer loop of rule 3.7 ends in `log.Fatal` when the read of some listed
directory fails. -/
theorem ownerFileLoop_fatal (env : Env) (refUid refGid : Nat) (files : List FileInfo)
    (bad : List String)
    (h : ∃ d ∈ files, d.IsDir = true ∧ (readDirAt env d.Name).err.isSome = true) :
    (CheckRegistryCertOwner.fileLoop env refUid refGid files bad).out = .error .fatal := by
  induction files generalizing bad with
  | nil => simp at h
  | cons f rest ih =>
    simp only [CheckRegistryCertOwner.fileLoop, Run.bind_eq, fmt.Println, ioutil.ReadDir,
      Run.bind_call_ok]
    by_cases hf : f.IsDir = true
    · by_cases he : (readDirAt env f.Name).err.isSome = true
      · simp only [hf, if_true, he, log.Fatal]
      · have hrest : ∃ d ∈ rest, d.IsDir = true ∧ (readDirAt env d.Name).err.isSome = true := by
          obtain ⟨d, hd, hdir, herr⟩ := h
          rcases List.mem_cons.1 hd with rfl | hd
          · exact absurd herr he
          · exact ⟨d, hd, hdir, herr⟩
        have hnone : (readDirAt env f.Name).err = none := by
          cases hx : (readDirAt env f.Name).err <;> simp_all
        simp only [hf, if_true, hnone, Option.isSome_none, Bool.false_eq_true, if_false]
        rw [Run.bind_out_of_ok _ _ _ (ownerCertLoop_out env refUid refGid _ bad)]
        exact ih _ hrest
    · have hrest : ∃ d ∈ rest, d.IsDir = true ∧ (readDirAt env d.Name).err.isSome = true := by
        obtain ⟨d, hd, hdir, herr⟩ := h
        rcases List.mem_cons.1 hd with rfl | hd
        · exact absurd hdir hf
        · exact ⟨d, hd, hdir, herr⟩
      simp only [hf, Bool.false_eq_true, if_false]
      exact ih _ hrest

/-- The outer loop of rule 3.8 ends in `log.Fatal` when the read of some listed
directory fails. -/
theorem permsFileLoop_fatal (env : Env) (refPerms : Nat) (files : List FileInfo)
    (bad : List String)
    (h : ∃ d ∈ files, d.IsDir = true ∧ (readDirAt env d.Name).err.isSome = true) :
    (CheckRegistryCertPerms.fileLoop env refPerms files bad).out = .error .fatal := by
  induction files generalizing bad with
  | nil => simp at h
  | cons f rest ih =>
    simp only [CheckRegistryCertPerms.fileLoop, Run.bind_eq, fmt.Println, ioutil.ReadDir,
      Run.bind_call_ok]
    by_cases hf : f.IsDir = true
    · by_cases he : (readDirAt env f.Name).err.isSome = true
      · simp only [hf, if_true, he, log.Fatal]
      · have hrest : ∃ d ∈ rest, d.IsDir = true ∧ (readDirAt env d.Name).err.isSome = true := by
          obtain ⟨d, hd, hdir, herr⟩ := h
          rcases List.mem_cons.1 hd with rfl | hd
          · exact absurd herr he
          · exact ⟨d, hd, hdir, herr⟩
        have hnone : (readDirAt env f.Name).err = none := by
          cases hx : (readDirAt env f.Name).err <;> simp_all
        simp only [hf, if_true, hnone, Option.isSome_none, Bool.false_eq_true, if_false]
        rw [Run.bind_out_of_ok _ _ _ (permsCertLoop_out env refPerms _ bad)]
        exact ih _ hrest
    · have hrest : ∃ d ∈ rest, d.IsDir = true ∧ (readDirAt env d.Name).err.isSome = true := by
        obtain ⟨d, hd, hdir, herr⟩ := h
        rcases List.mem_cons.1 hd with rfl | hd
        · exact absurd hdir hf
        · exact ⟨d, hd, hdir, herr⟩
      simp only [hf, Bool.false_eq_true, if_false]
      exact ih _ hrest

theorem Run.bind_out_of_error {α β : Type} (m : Run α) (f : α → Run β) (e : Abort)
    (h : m.out = .error e) : (Run.bind m f).out = .error e := by
  unfold Run.bind
  rw [h]

theorem nested_reads_of_treeReadable (env : Env) (h : treeReadable env = true) :
    (readDirAt env certsDir).err = none ∧
    ∀ d ∈ (readDirAt env certsDir).list, d.IsDir = true → (readDirAt env d.Name).err = none := by
  unfold treeReadable at h
  rw [Bool.and_eq_true, List.all_eq_true] at h
  refine ⟨Option.isNone_iff_eq_none.1 h.1, fun d hd hdir => ?_⟩
  have := h.2 d hd
  rw [hdir] at this
  simpa using this

theorem nested_failure_of_not_treeReadable (env : Env) (h : treeReadable env = false)
    (htop : (readDirAt env certsDir).err = none) :
    ∃ d ∈ (readDirAt env certsDir).list,
      d.IsDir = true ∧ (readDirAt env d.Name).err.isSome = true := by
  unfold treeReadable at h
  rw [htop] at h
  simp only [Option.isNone_none, Bool.true_and] at h
  have h2 : ¬ ∀ d ∈ (readDirAt env certsDir).list,
      (!d.IsDir || (readDirAt env d.Name).err.isNone) = true := by
    rw [← List.all_eq_true, h]
    exact Bool.false_ne_true
  push_neg at h2
  obtain ⟨d, hd, hne⟩ := h2
  refine ⟨d, hd, ?_⟩
  cases hdir : d.IsDir <;> cases herr : (readDirAt env d.Name).err <;> simp_all

/-- Aggregation where the reads the rules themselves make all succeed (and, for
the ownership rule, the lookup of root has answered): when no entry read is
non-compliant the result is PASS with empty Output; otherwise it is WARN and the
Output lists the names of exactly the non-compliant entries read, one per entry,
in the order they were read. -/
theorem registry_cert_aggregation (env : Env) (refUid refGid : Nat)
    (hu : env.userInfo "root" = .ok (refUid, refGid)) (hread : treeReadable env = true) :
    (CheckRegistryCertOwner env).out = .ok
      (if (evaluatedFiles env).filter (ownerNonCompliant refUid refGid) = [] then
        ⟨"3.7 Verify that registry certificate file ownership\n\t is set to root:root", "PASS", ""⟩
       else
        ⟨"3.7 Verify that registry certificate file ownership\n\t is set to root:root", "WARN",
          "Certificate files do not have root as owner : " ++
            fmtStrings (((evaluatedFiles env).filter (ownerNonCompliant refUid refGid)).map
              (fun c => c.Name))⟩) ∧
    (CheckRegistryCertPerms env).out = .ok
      (if (evaluatedFiles env).filter (permsNonCompliant 0o444) = [] then
        ⟨"3.8 Verify that registry certificate file permissions\n\t\tare set to 444 or more restrictive",
          "PASS", ""⟩
       else
        ⟨"3.8 Verify that registry certificate file permissions\n\t\tare set to 444 or more restrictive",
          "WARN",
          "Certificate files do not have required permissions: " ++
            fmtStrings (((evaluatedFiles env).filter (permsNonCompliant 0o444)).map
              (fun c => c.Name))⟩) := by
  obtain ⟨htop, hnested⟩ := nested_reads_of_treeReadable env hread
  have htop2 : (readDirAt env "/etc/docker/certs.d/").err = none := htop
  have hnested2 : ∀ d ∈ (readDirAt env "/etc/docker/certs.d/").list,
      d.IsDir = true → (readDirAt env d.Name).err = none := hnested
  constructor
  · simp only [CheckRegistryCertOwner, Run.bind_eq, Run.pure_eq, getUserInfo, ioutil.ReadDir, hu,
      Run.bind_call_ok, htop2, Option.isSome_none, Bool.false_eq_true, if_false]
    rw [Run.bind_out_of_ok _ _ _ (ownerFileLoop_out env refUid refGid _ [] hnested2)]
    simp only [List.nil_append, evaluatedFiles, certsDir]
    split <;> rename_i hlen <;> split <;> rename_i hnil <;> simp_all
  · simp only [CheckRegistryCertPerms, Run.bind_eq, Run.pure_eq, ioutil.ReadDir,
      Run.bind_call_ok, htop2, Option.isSome_none, Bool.false_eq_true, if_false]
    rw [Run.bind_out_of_ok _ _ _ (permsFileLoop_out env 0o444 _ [] hnested2)]
    simp only [List.nil_append, evaluatedFiles, certsDir]
    split <;> rename_i hlen <;> split <;> rename_i hnil <;> simp_all

/-- C3 (the code departs from it): on a host whose certificate tree is readable
and holds three files, two of them not owned by root and one with excess
permission bits, a rule run from `/root` returns no Result at all (the nested
read of the bare entry name fails and `log.Fatal` ends the process), and run
from `/srv/mirror` both rules return PASS with empty Output although the tree
holds non-compliant files; only from `/etc/docker/certs.d` do they WARN with
exactly the offending names. -/
theorem registry_cert_aggregation_off_tree :
    treeOnDiskReadable (registryHost "/root") = true ∧
    ((treeFiles (registryHost "/root")).filter (ownerNonCompliant 0 0)).map (fun c => c.Name)
      = ["client.cert", "client.key"] ∧
    ((treeFiles (registryHost "/root")).filter (permsNonCompliant 0o444)).map (fun c => c.Name)
      = ["client.cert"] ∧
    (¬ ∃ r, (CheckRegistryCertOwner (registryHost "/root")).out = .ok r) ∧
    (¬ ∃ r, (CheckRegistryCertPerms (registryHost "/root")).out = .ok r) ∧
    treeOnDiskReadable (registryHost "/srv/mirror") = true ∧
    treeFiles (registryHost "/srv/mirror") = treeFiles (registryHost "/root") ∧
    (CheckRegistryCertOwner (registryHost "/srv/mirror")).out = .ok
      ⟨"3.7 Verify that registry certificate file ownership\n\t is set to root:root", "PASS", ""⟩ ∧
    (CheckRegistryCertPerms (registryHost "/srv/mirror")).out = .ok
      ⟨"3.8 Verify that registry certificate file permissions\n\t\tare set to 444 or more restrictive",
        "PASS", ""⟩ ∧
    treeFiles (registryHost "/etc/docker/certs.d") = treeFiles (registryHost "/root") ∧
    (CheckRegistryCertOwner (registryHost "/etc/docker/certs.d")).out = .ok
      ⟨"3.7 Verify that registry certificate file ownership\n\t is set to root:root", "WARN",
        "Certificate files do not have root as owner : [client.cert client.key]"⟩ ∧
    (CheckRegistryCertPerms (registryHost "/etc/docker/certs.d")).out = .ok
      ⟨"3.8 Verify that registry certificate file permissions\n\t\tare set to 444 or more restrictive",
        "WARN", "Certificate files do not have required permissions: [client.cert]"⟩ := by
  have ho : (CheckRegistryCertOwner (registryHost "/root")).out = .error .fatal := rfl
  have hp : (CheckRegistryCertPerms (registryHost "/root")).out = .error .fatal := rfl
  refine ⟨rfl, rfl, rfl, ?_, ?_, rfl, rfl, rfl, rfl, rfl, rfl, rfl⟩
  · rintro ⟨r, hr⟩
    rw [ho] at hr
    exact Except.noConfusion hr
  · rintro ⟨r, hr⟩
    rw [hp] at hr
    exact Except.noConfusion hr

/-- C7 as stated fails: on a host whose certificate directory lists a registry
directory that cannot be read, neither directory-tree rule returns a Result;
both end the process in `log.Fatal`. -/
theorem nested_read_failure_is_fatal :
    treeReadable nestedDeniedHost = false ∧
    (readDirAt nestedDeniedHost certsDir).err = none ∧
    (¬ ∃ r, (CheckRegistryCertOwner nestedDeniedHost).out = .ok r) ∧
    (¬ ∃ r, (CheckRegistryCertPerms nestedDeniedHost).out = .ok r) ∧
    CheckRegistryCertPerms nestedDeniedHost =
      ⟨[.readDir "/etc/docker/certs.d/", .println "private.example.com",
        .readDir "private.example.com"], .error .fatal⟩ := by
  have ho : (CheckRegistryCertOwner nestedDeniedHost).out = .error .fatal := rfl
  have hp : (CheckRegistryCertPerms nestedDeniedHost).out = .error .fatal := rfl
  refine ⟨rfl, rfl, ?_, ?_, rfl⟩
  · rintro ⟨r, hr⟩
    rw [ho] at hr
    exact Except.noConfusion hr
  · rintro ⟨r, hr⟩
    rw [hp] at hr
    exact Except.noConfusion hr

/-- C7, amended: when some directory read of a directory-tree rule fails (and,
for the ownership rule, the lookup of root has answered), a failure of the
top-level read yields the Result INFO "Directory is inaccessible", and otherwise
(the top-level read succeeded and the read of a nested directory failed) the
rule ends the process through `log.Fatal` and returns no Result. -/
theorem registry_cert_read_failure (env : Env) (refUid refGid : Nat)
    (hu : env.userInfo "root" = .ok (refUid, refGid)) (hfail : treeReadable env = false) :
    (CheckRegistryCertOwner env).out =
      (if (readDirAt env certsDir).err.isSome then
        .ok ⟨"3.7 Verify that registry certificate file ownership\n\t is set to root:root",
          "INFO", "Directory is inaccessible"⟩
       else .error .fatal) ∧
    (CheckRegistryCertPerms env).out =
      (if (readDirAt env certsDir).err.isSome then
        .ok ⟨"3.8 Verify that registry certificate file permissions\n\t\tare set to 444 or more restrictive",
          "INFO", "Directory is inaccessible"⟩
       else .error .fatal) := by
  by_cases htop : (readDirAt env certsDir).err.isSome = true
  · have htop2 : (readDirAt env "/etc/docker/certs.d/").err.isSome = true := htop
    rw [if_pos htop, if_pos htop]
    constructor
    · simp only [CheckRegistryCertOwner, Run.bind_eq, Run.pure_eq, getUserInfo, ioutil.ReadDir,
        hu, Run.bind_call_ok, htop2, if_true]
    · simp only [CheckRegistryCertPerms, Run.bind_eq, Run.pure_eq, ioutil.ReadDir,
        Run.bind_call_ok, htop2, if_true]
  · have hnone : (readDirAt env certsDir).err = none := by
      cases hx : (readDirAt env certsDir).err <;> simp_all
    have hnone2 : (readDirAt env "/etc/docker/certs.d/").err = none := hnone
    have hex : ∃ d ∈ (readDirAt env "/etc/docker/certs.d/").list,
        d.IsDir = true ∧ (readDirAt env d.Name).err.isSome = true :=
      nested_failure_of_not_treeReadable env hfail hnone
    rw [if_neg htop, if_neg htop]
    constructor
    · simp only [CheckRegistryCertOwner, Run.bind_eq, Run.pure_eq, getUserInfo, ioutil.ReadDir,
        hu, Run.bind_call_ok, hnone2, Option.isSome_none, Bool.false_eq_true, if_false]
      exact Run.bind_out_of_error _ _ _ (ownerFileLoop_fatal env refUid refGid _ [] hex)
    · simp only [CheckRegistryCertPerms, Run.bind_eq, Run.pure_eq, ioutil.ReadDir,
        Run.bind_call_ok, hnone2, Option.isSome_none, Bool.false_eq_true, if_false]
      exact Run.bind_out_of_error _ _ _ (permsFileLoop_fatal env 0o444 _ [] hex)

/-- C7 amended, at a concrete host: `/etc/docker/certs.d/` cannot be read and
both rules return INFO "Directory is inaccessible". -/
theorem registry_cert_read_failure_witness :
    (certsDeniedHost.userInfo "root" = .ok (0, 0) ∧ treeReadable certsDeniedHost = false) ∧
    (CheckRegistryCertOwner certsDeniedHost).out =
      .ok ⟨"3.7 Verify that registry certificate file ownership\n\t is set to root:root",
        "INFO", "Directory is inaccessible"⟩ ∧
    (CheckRegistryCertPerms certsDeniedHost).out =
      .ok ⟨"3.8 Verify that registry certificate file permissions\n\t\tare set to 444 or more restrictive",
        "INFO", "Directory is inaccessible"⟩ :=
  ⟨⟨rfl, rfl⟩, registry_cert_read_failure certsDeniedHost 0 0 rfl rfl⟩

/-- C10 (the code departs from it): the nested read is made with the bare entry
name, never with the joined path, so the result follows the working directory.
On one and the same file system, run from `/etc/docker/certs.d` both rules WARN
about the real certificate files, run from `/srv/mirror` they evaluate the
unrelated directory of the same name and PASS, and run from `/root` the nested
read fails and the process ends. -/
theorem registry_cert_follows_cwd :
    (CheckRegistryCertOwner (registryHost "/etc/docker/certs.d")).trace =
      [.userInfo "root", .readDir "/etc/docker/certs.d/", .println "README",
        .println "registry.example.com", .readDir "registry.example.com",
        .fileOwner (some (regular "ca.crt" 0o444 0 0)),
        .fileOwner (some (regular "client.cert" 0o664 1000 1000)),
        .fileOwner (some (regular "client.key" 0o400 0 1000))] ∧
    (CheckRegistryCertOwner (registryHost "/etc/docker/certs.d")).out = .ok
      ⟨"3.7 Verify that registry certificate file ownership\n\t is set to root:root", "WARN",
        "Certificate files do not have root as owner : [client.cert client.key]"⟩ ∧
    (CheckRegistryCertOwner (registryHost "/srv/mirror")).out = .ok
      ⟨"3.7 Verify that registry certificate file ownership\n\t is set to root:root", "PASS", ""⟩ ∧
    (CheckRegistryCertOwner (registryHost "/root")).out = .error .fatal ∧
    (CheckRegistryCertPerms (registryHost "/etc/docker/certs.d")).out = .ok
      ⟨"3.8 Verify that registry certificate file permissions\n\t\tare set to 444 or more restrictive",
        "WARN", "Certificate files do not have required permissions: [client.cert]"⟩ ∧
    (CheckRegistryCertPerms (registryHost "/srv/mirror")).out = .ok
      ⟨"3.8 Verify that registry certificate file permissions\n\t\tare set to 444 or more restrictive",
        "PASS", ""⟩ ∧
    (CheckRegistryCertPerms (registryHost "/root")).out = .error .fatal ∧
    (CheckRegistryCertPerms (registryHost "/root")).trace =
      [.readDir "/etc/docker/certs.d/", .println "README", .println "registry.example.com",
        .readDir "registry.example.com"] :=
  ⟨rfl, rfl, rfl, rfl, rfl, rfl, rfl, rfl⟩

/-! ## Certificate paths derived from the process arguments -/

theorem GetCmdOption_of_flagAbsent (args : List String) (opt : String)
    (h : flagAbsent args opt = true) : GetCmdOption args opt = (false, "") := by
  induction args with
  | nil => rfl
  | cons a rest ih =>
    simp only [flagAbsent, List.all_cons, Bool.and_eq_true, bne_iff_ne, ne_eq,
      Bool.not_eq_true'] at h
    obtain ⟨⟨hne, hpre⟩, hrest⟩ := h
    rw [GetCmdOption.eq_def]
    simp only [hne, if_false, hpre, Bool.false_eq_true]
    exact ih hrest

theorem statAt_empty (env : Env) : statAt env "" = ⟨none, some .notExist⟩ := rfl

/-- C8 as stated fails: on a host whose docker daemon runs without `--tlscert`
the derived path is empty and `CheckServerCertOwner` does call `os.Stat` on the
empty path; the same holds of `CheckCertKeyPerms` and `--tlskey`. -/
theorem cert_rule_stats_empty_path :
    flagAbsent (procCmdline noTlsHost "docker").1 "--tlscert" = true ∧
    derivedPath noTlsHost "--tlscert" = "" ∧
    Event.stat "" ∈ (CheckServerCertOwner noTlsHost).trace ∧
    ¬ (∀ e ∈ (CheckServerCertOwner noTlsHost).trace, e ≠ Event.stat "") ∧
    CheckCertKeyPerms noTlsHost =
      ⟨[.procCmdline "docker", .stat ""],
        .ok ⟨"3.14 Verify that Docker server certificate key file\n\tpermissions are set to 400",
          "INFO", "File could not be accessed"⟩⟩ := by
  have hm : Event.stat "" ∈ (CheckServerCertOwner noTlsHost).trace := by
    have ht : (CheckServerCertOwner noTlsHost).trace = [.procCmdline "docker", .stat ""] := rfl
    rw [ht]
    exact List.mem_cons_of_mem _ (List.mem_singleton.2 rfl)
  exact ⟨rfl, rfl, hm, fun h => h _ hm rfl, rfl⟩

/-- C8, amended: for every certificate rule deriving its target from a process
flag and every process table in which the flag is absent from the arguments of
`docker` (or no `docker` process runs), the derived path is empty, the rule
calls `os.Stat` on that empty path, which reports not-found, and the rule
returns INFO "File could not be accessed" having made no other call. -/
theorem cert_rule_flag_absent (rule : Rule) (flag : String) (env : Env)
    (hf : rule.flag = some flag)
    (ha : flagAbsent (procCmdline env "docker").1 flag = true) :
    derivedPath env flag = "" ∧
    ∃ n, rule.run env =
      ⟨[.procCmdline "docker", .stat ""], .ok ⟨n, "INFO", "File could not be accessed"⟩⟩ := by
  have hp := GetCmdOption_of_flagAbsent _ _ ha
  refine ⟨by simp only [derivedPath, hp], ?_⟩
  cases rule <;> simp only [Rule.flag, Option.some.injEq, reduceCtorEq] at hf <;> subst hf <;>
    simp only [Rule.run, CheckCACertOwner, CheckCACertPerms, CheckServerCertOwner,
      CheckServerCertPerms, CheckCertKeyOwner, CheckCertKeyPerms, Run.bind_eq, Run.pure_eq,
      GetProcCmdline, os.Stat, Run.bind_call_ok, hp, statAt_empty, os.IsNotExist, if_true,
      Result.Info] <;>
    exact ⟨_, rfl⟩

/-- C8 amended, at a concrete host: no `docker` process runs on the bare host,
and `CheckCACertOwner` stats the empty path and returns INFO. -/
theorem cert_rule_flag_absent_witness :
    (Rule.flag .CACertOwner = some "--tlscacert" ∧
      flagAbsent (procCmdline bareHost "docker").1 "--tlscacert" = true) ∧
    derivedPath bareHost "--tlscacert" = "" ∧
    ∃ n, Rule.run .CACertOwner bareHost =
      ⟨[.procCmdline "docker", .stat ""], .ok ⟨n, "INFO", "File could not be accessed"⟩⟩ :=
  ⟨⟨rfl, rfl⟩, cert_rule_flag_absent .CACertOwner "--tlscacert" bareHost rfl rfl⟩

end checks
